import Mathlib

/-!
# Startup environment report of the MQ container (`cmd/runmqserver/mqconfig.go`)

A shallow embedding of `mqconfig.go`.  The Go functions read pseudo-files, call
the operating system and write log lines; here every such effect is recorded,
in program order, in a trace of events, and a run ends by returning, by
`os.Exit` (after `log.Fatalf`) or by a run-time panic.
-/

set_option maxRecDepth 100000

namespace MQConfig

/-! ## Go strings and the `strings` functions the file uses -/

/-- Go strings, modelled as the list of their Unicode code points (valid UTF-8 text). -/
abbrev GoString := List Char

/-- A Go `error` value, identified with the text its `Error` method returns. -/
abbrev GoError := GoString

/-- Go `strings.HasPrefix`: `len(s) >= len(p) && s[:len(p)] == p`. -/
def HasPrefix (s p : GoString) : Bool :=
  decide (p.length ≤ s.length) && (s.take p.length == p)

/-- Scan of `strings.Index`: the position of the first occurrence of `sub` in
`s`, counted from `i`, or `-1`. -/
def indexFrom (sub : GoString) : GoString → Nat → Int
  | [], i => if HasPrefix [] sub then (i : Int) else -1
  | c :: s, i => if HasPrefix (c :: s) sub then (i : Int) else indexFrom sub s (i + 1)

/-- Go `strings.Index`. -/
def Index (s sub : GoString) : Int := indexFrom sub s 0

/-- Go `strings.Contains`: `Index(s, substr) >= 0`. -/
def Contains (s sub : GoString) : Bool := decide (0 ≤ Index s sub)

/-- Left-to-right scan of `strings.Split` for a non-empty separator: `skip` is
the number of characters of a separator occurrence still to be passed over,
`cur` the piece collected since the last separator. -/
def splitScan (sep : GoString) : GoString → Nat → GoString → List GoString
  | [], _, cur => [cur]
  | _ :: s, skip + 1, cur => splitScan sep s skip cur
  | c :: s, 0, cur =>
    if HasPrefix (c :: s) sep then cur :: splitScan sep s (sep.length - 1) []
    else splitScan sep s 0 (cur ++ [c])

/-- Go `strings.Split`: the pieces of `s` between the non-overlapping
occurrences of `sep`, found left to right; with an empty separator, the
characters of `s` one by one. -/
def Split (s sep : GoString) : List GoString :=
  match sep with
  | [] => s.map fun c => [c]
  | _ :: _ => splitScan sep s 0 []

/-- Go `strings.Join`. -/
def Join : List GoString → GoString → GoString
  | [], _ => []
  | [a], _ => a
  | a :: b :: rest, sep => a ++ sep ++ Join (b :: rest) sep

/-- Go `unicode.IsSpace`: the Latin-1 space characters and the other code
points with the Unicode property White_Space. -/
def IsSpace (c : Char) : Bool :=
  let n := c.toNat
  (0x09 ≤ n && n ≤ 0x0d) || n == 0x20 || n == 0x85 || n == 0xa0 || n == 0x1680 ||
  (0x2000 ≤ n && n ≤ 0x200a) || n == 0x2028 || n == 0x2029 || n == 0x202f ||
  n == 0x205f || n == 0x3000

/-- Go `strings.TrimSpace`: `s` without its leading and trailing white space. -/
def TrimSpace (s : GoString) : GoString :=
  ((s.dropWhile IsSpace).reverse.dropWhile IsSpace).reverse

/-! ## Effects: the trace of a run and how it ends -/

/-- What a run does to the outside world, in program order. -/
inductive Event where
  /-- One call of `log.Printf`, `log.Println` or `log.Fatalf` with this message. -/
  | log (line : GoString)
  /-- A call of `ioutil.ReadFile`. -/
  | readFile (filename : GoString)
  /-- A call of `user.Current`. -/
  | userCurrent
  /-- A call of `capabilities.DetectCapabilities`. -/
  | detectCapabilities (status : GoString)
  /-- A call of `unix.Statfs`. -/
  | statfs (path : GoString)
  deriving DecidableEq, Repr

/-- How a run ends. -/
inductive Outcome (α : Type) where
  /-- The function returns to its caller. -/
  | ret (a : α)
  /-- The process ends with `os.Exit(code)`. -/
  | exit (code : Nat)
  /-- A run-time panic (index out of range). -/
  | panic
  deriving DecidableEq, Repr

/-- A run: the events it produced and how it ended. -/
structure Run (α : Type) where
  trace : List Event
  outcome : Outcome α
  deriving DecidableEq, Repr

/-- Sequencing: the second part runs only when the first one returns. -/
def Run.bind {α β : Type} (r : Run α) (f : α → Run β) : Run β :=
  match r.outcome with
  | .ret a => ⟨r.trace ++ (f a).trace, (f a).outcome⟩
  | .exit c => ⟨r.trace, .exit c⟩
  | .panic => ⟨r.trace, .panic⟩

instance : Monad Run where
  pure a := ⟨[], .ret a⟩
  bind := Run.bind

/-- The log messages of a trace, in order. -/
def logLines : List Event → List GoString
  | [] => []
  | .log l :: es => l :: logLines es
  | _ :: es => logLines es

/-- The paths `unix.Statfs` was called on, in order. -/
def statfsCalls : List Event → List GoString
  | [] => []
  | .statfs p :: es => p :: statfsCalls es
  | _ :: es => statfsCalls es

/-! ## The environment -/

/-- The fields of `user.User` that are logged. -/
structure User where
  Uid : GoString
  Name : GoString
  Gid : GoString

/-- The environment the program runs in: what the runtime, the file system and
the operating system answer. -/
structure World where
  /-- Go `runtime.GOOS`. -/
  GOOS : GoString
  /-- Go `runtime.GOARCH`. -/
  GOARCH : GoString
  /-- Go `ioutil.ReadFile`: the content of a file, or the read error. -/
  ReadFile : GoString → Except GoError GoString
  /-- Go `user.Current`: the current user, or the lookup error. -/
  Current : Except GoError User
  /-- Function `capabilities.DetectCapabilities` (another package of the repository, used
  through its contract: status text in, capability names or an error out). -/
  DetectCapabilities : GoString → Except GoError (List GoString)
  /-- Go `unix.Statfs`: the `Type` field of the result (an `int64`), or the error. -/
  Statfs : GoString → Except GoError Int

/-- A call of `ioutil.ReadFile`. -/
def ioutilReadFile (w : World) (filename : GoString) : Run (Except GoError GoString) :=
  ⟨[.readFile filename], .ret (w.ReadFile filename)⟩

/-- A call of `user.Current`. -/
def userCurrent (w : World) : Run (Except GoError User) :=
  ⟨[.userCurrent], .ret w.Current⟩

/-- A call of `capabilities.DetectCapabilities`. -/
def detectCapabilities (w : World) (status : GoString) : Run (Except GoError (List GoString)) :=
  ⟨[.detectCapabilities status], .ret (w.DetectCapabilities status)⟩

/-- A call of `unix.Statfs`. -/
def unixStatfs (w : World) (path : GoString) : Run (Except GoError Int) :=
  ⟨[.statfs path], .ret (w.Statfs path)⟩

/-- Go `log.Printf` and `log.Println`: one message written to the log. -/
def logPrint (line : GoString) : Run Unit := ⟨[.log line], .ret ()⟩

/-- Go `log.Fatalf`: the message is written to the log, then `os.Exit(1)`. -/
def logFatal {α : Type} (line : GoString) : Run α := ⟨[.log line], .exit 1⟩

/-- An index expression out of range. -/
def goPanic {α : Type} : Run α := ⟨[], .panic⟩

/-! ## `mqconfig.go` -/

/-- The table `fsTypes` of file system identifier codes. -/
def fsTypes : List (Int × GoString) :=
  [ (0x61756673, "aufs".toList),
    (0xef53, "ext".toList),
    (0x6969, "nfs".toList),
    (0x65735546, "fuse".toList),
    (0x9123683e, "btrfs".toList),
    (0x01021994, "tmpfs".toList),
    (0x794c7630, "overlayfs".toList) ]

/-- The map index expression `fsTypes[code]`: the empty string for a code that is not a key. -/
def fsTypesAt (code : Int) : GoString := (fsTypes.lookup code).getD []

/-- The `for _, l := range lines` loop of `logBaseImage`, which returns from the
function at the first line that starts with the key and has two words. -/
def logBaseImageLoop : List GoString → Run (Option GoError)
  | [] => pure none
  | l :: ls =>
    if HasPrefix l "PRETTY_NAME=".toList then
      let words := Split l "\"".toList
      if 2 ≤ words.length then do
        logPrint ("Base image detected: ".toList ++ words.getD 1 [])
        pure none
      else logBaseImageLoop ls
    else logBaseImageLoop ls

/-- Function `logBaseImage`. -/
def logBaseImage (w : World) : Run (Option GoError) := do
  match ← ioutilReadFile w "/etc/os-release".toList with
  | .error err => pure (some err)
  | .ok buf => logBaseImageLoop (Split buf "\n".toList)

/-- Function `logUser`. -/
def logUser (w : World) : Run Unit := do
  match ← userCurrent w with
  | .ok u =>
    logPrint ("Running as user ID ".toList ++ u.Uid ++ " (".toList ++ u.Name ++
      ") with primary group ".toList ++ u.Gid)
  | .error _ => pure ()

/-- Function `readProc`. -/
def readProc (w : World) (filename : GoString) : Run (Except GoError GoString) := do
  match ← ioutilReadFile w filename with
  | .error err => pure (.error err)
  | .ok buf => pure (.ok (TrimSpace buf))

/-- Function `logCapabilities`. -/
def logCapabilities (w : World) : Run Unit := do
  match ← readProc w "/proc/1/status".toList with
  | .error _ => pure ()
  | .ok status =>
    match ← detectCapabilities w status with
    | .ok caps => logPrint ("Detected capabilities: ".toList ++ Join caps ",".toList)
    | .error _ => pure ()

/-- Function `checkFS`. -/
def checkFS (w : World) (path : GoString) : Run Unit := do
  match ← unixStatfs w path with
  | .error err => logPrint err
  | .ok ty =>
    let t := fsTypesAt ty
    if t = "aufs".toList ∨ t = "overlayfs".toList ∨ t = "tmpfs".toList then
      logFatal ("Error: ".toList ++ path ++ " uses unsupported filesystem type ".toList ++ t)
    else
      logPrint ("Detected ".toList ++ path ++ " has filesystem type \x27".toList ++ t ++ "\x27".toList)

/-- The `for i := range lines` loop of `readMounts`; the state is `detected`.
`parts[1]` and `parts[2]` are index expressions without a length check. -/
def readMountsLoop : List GoString → Bool → Run Bool
  | [], detected => pure detected
  | l :: ls, detected =>
    let parts := Split l " ".toList
    match parts.get? 1 with
    | none => goPanic
    | some mountPoint =>
      match parts.get? 2 with
      | none => goPanic
      | some fsType =>
        if Contains mountPoint "/mnt".toList then do
          logPrint ("Detected \x27".toList ++ fsType ++ "\x27 volume mounted to ".toList ++ mountPoint)
          readMountsLoop ls true
        else readMountsLoop ls detected

/-- Function `readMounts`. -/
def readMounts (w : World) : Run (Option GoError) := do
  match ← readProc w "/proc/mounts".toList with
  | .error err =>
    logPrint "Error: Couldn\x27t read /proc/mounts".toList
    pure (some err)
  | .ok all =>
    let detected ← readMountsLoop (Split all "\n".toList) false
    if !detected then
      logPrint "No volume detected. Persistent messages may be lost".toList
    else
      checkFS w "/mnt/mqm".toList
    pure none

/-- Function `logConfig`. -/
def logConfig (w : World) : Run Unit := do
  logPrint ("CPU architecture: ".toList ++ w.GOARCH)
  if w.GOOS = "linux".toList then
    match ← readProc w "/proc/sys/kernel/osrelease".toList with
    | .error err => logPrint err
    | .ok osr => logPrint ("Linux kernel version: ".toList ++ osr)
    let _ ← logBaseImage w
    match ← readProc w "/proc/sys/fs/file-max".toList with
    | .error err => logPrint err
    | .ok fileMax => logPrint ("Maximum file handles: ".toList ++ fileMax)
    logUser w
    logCapabilities w
    let _ ← readMounts w
  else
    logFatal ("Unsupported platform: ".toList ++ w.GOOS)

/-! ## Vocabulary of the statements -/

/-- The double quote character. -/
def dquote : Char := Char.ofNat 0x22

/-- The line `PRETTY_NAME="X"` of an os-release file. -/
def prettyNameLine (X : GoString) : GoString :=
  "PRETTY_NAME=\"".toList ++ X ++ "\"".toList

/-- A Linux environment given by the content of its files and by what `statfs`
answers; a file that is not listed cannot be read. -/
def linuxWorld (files : List (GoString × GoString)) (statfs : Except GoError Int) : World where
  GOOS := "linux".toList
  GOARCH := "amd64".toList
  ReadFile f :=
    match files.lookup f with
    | some content => .ok content
    | none => .error ("open ".toList ++ f ++ ": no such file or directory".toList)
  Current := .ok ⟨"1001".toList, [], "0".toList⟩
  DetectCapabilities _ := .ok ["CHOWN".toList, "SETUID".toList]
  Statfs _ := statfs

/-- The mount point of a mount table line: its second space-separated field. -/
def mountPoint (l : GoString) : GoString := (Split l " ".toList).getD 1 []

/-- The filesystem type of a mount table line: its third space-separated field. -/
def fsTypeField (l : GoString) : GoString := (Split l " ".toList).getD 2 []

/-- Whether the mount point of a mount table line contains the substring `/mnt`. -/
def isVolumeEntry (l : GoString) : Bool := decide ("/mnt".toList <:+: mountPoint l)

/-- The entries of a mount table, in table order, whose mount point contains `/mnt`. -/
def volumeEntries (table : GoString) : List GoString :=
  (Split table "\n".toList).filter isVolumeEntry

/-- The message `Detected '<fsType>' volume mounted to <mountPoint>` of an entry. -/
def detectedVolume (l : GoString) : Event :=
  .log ("Detected \x27".toList ++ fsTypeField l ++ "\x27 volume mounted to ".toList ++ mountPoint l)

/-- The outcome of a run whose returned value is replaced by `b`. -/
def Outcome.replace {α β : Type} (o : Outcome α) (b : β) : Outcome β :=
  match o with
  | .ret _ => .ret b
  | .exit c => .exit c
  | .panic => .panic

/-- An environment whose operating system is not Linux. -/
def darwinWorld : World where
  GOOS := "darwin".toList
  GOARCH := "amd64".toList
  ReadFile f := .error ("open ".toList ++ f ++ ": no such file or directory".toList)
  Current := .ok ⟨"501".toList, "mqm".toList, "20".toList⟩
  DetectCapabilities _ := .error "unsupported".toList
  Statfs _ := .error "not implemented".toList

/-- What reporting a pseudo-file leaves in the trace: the read, then the message
with the trimmed content under its label or, when the read fails, the error. -/
def procReport (w : World) (filename label : GoString) : List Event :=
  .readFile filename ::
    match w.ReadFile filename with
    | .error err => [.log err]
    | .ok buf => [.log (label ++ TrimSpace buf)]

/-- What reporting the identity leaves in the trace: the lookup, then the
message when the lookup succeeds. -/
def userReport (w : World) : List Event :=
  .userCurrent ::
    match w.Current with
    | .ok u => [.log ("Running as user ID ".toList ++ u.Uid ++ " (".toList ++ u.Name ++
        ") with primary group ".toList ++ u.Gid)]
    | .error _ => []

/-- What reporting the capabilities leaves in the trace: the read of the status
of process 1, then the decoding when the read succeeds, then the message when
the decoding succeeds. -/
def capabilitiesReport (w : World) : List Event :=
  .readFile "/proc/1/status".toList ::
    match w.ReadFile "/proc/1/status".toList with
    | .error _ => []
    | .ok buf =>
      .detectCapabilities (TrimSpace buf) ::
        match w.DetectCapabilities (TrimSpace buf) with
        | .ok caps => [.log ("Detected capabilities: ".toList ++ Join caps ",".toList)]
        | .error _ => []

/-- A Linux environment in which only the mount table can be read, the identity
lookup fails and the capability decoding fails. -/
def bareLinuxWorld : World where
  GOOS := "linux".toList
  GOARCH := "s390x".toList
  ReadFile f :=
    if f = "/proc/mounts".toList then .ok "proc /proc proc rw 0 0\n".toList
    else .error "permission denied".toList
  Current := .error "user: unknown userid 1001".toList
  DetectCapabilities _ := .error "no capabilities".toList
  Statfs _ := .error "no such file or directory".toList

/-! ## Lemmas on the string functions -/

theorem HasPrefix_iff (s p : GoString) : HasPrefix s p = true ↔ p <+: s := by
  unfold HasPrefix
  rw [Bool.and_eq_true, decide_eq_true_eq, beq_iff_eq, List.prefix_iff_eq_take]
  constructor
  · rintro ⟨_, h⟩
    exact h.symm
  · intro h
    refine ⟨?_, h.symm⟩
    have := congrArg List.length h
    rw [List.length_take] at this
    omega

theorem indexFrom_nonneg_iff (sub s : GoString) (i : Nat) :
    0 ≤ indexFrom sub s i ↔ sub <:+: s := by
  induction s generalizing i with
  | nil =>
    unfold indexFrom
    by_cases h : HasPrefix [] sub = true
    · have h2 := (HasPrefix_iff _ _).1 h
      simp only [h, if_true]
      exact ⟨fun _ => h2.isInfix, fun _ => Int.ofNat_nonneg i⟩
    · have h2 : ¬ sub <+: [] := fun hp => h ((HasPrefix_iff _ _).2 hp)
      simp only [h, Bool.false_eq_true, if_false]
      constructor
      · intro h0
        simp at h0
      · intro hi
        exact absurd (List.prefix_nil.2 (List.infix_nil.1 hi)) h2
  | cons c s ih =>
    unfold indexFrom
    rw [List.infix_cons_iff]
    by_cases h : HasPrefix (c :: s) sub = true
    · simp only [h, if_true]
      exact ⟨fun _ => Or.inl ((HasPrefix_iff _ _).1 h), fun _ => Int.ofNat_nonneg i⟩
    · have h2 : ¬ sub <+: c :: s := fun hp => h ((HasPrefix_iff _ _).2 hp)
      simp only [h, Bool.false_eq_true, if_false]
      rw [ih]
      exact ⟨Or.inr, fun hh => hh.resolve_left h2⟩

/-- Go `strings.Contains` decides the substring relation. -/
theorem Contains_iff (s sub : GoString) : Contains s sub = true ↔ sub <:+: s := by
  unfold Contains Index
  rw [decide_eq_true_eq]
  exact indexFrom_nonneg_iff sub s 0

theorem HasPrefix_cons_singleton (d c : Char) (s : GoString) :
    HasPrefix (d :: s) [c] = decide (d = c) := by
  by_cases h : d = c <;> simp [HasPrefix, h]

theorem splitScan_not_mem (c : Char) (s cur : GoString) (h : c ∉ s) :
    splitScan [c] s 0 cur = [cur ++ s] := by
  induction s generalizing cur with
  | nil => simp [splitScan]
  | cons d s ih =>
    have hd : d ≠ c := fun e => h (by simp [e])
    have hs : c ∉ s := fun e => h (List.mem_cons_of_mem _ e)
    rw [splitScan, HasPrefix_cons_singleton]
    simp only [hd, decide_False, Bool.false_eq_true, if_false]
    rw [ih _ hs]
    simp

theorem splitScan_append_sep (c : Char) (a b cur : GoString) (h : c ∉ a) :
    splitScan [c] (a ++ c :: b) 0 cur = (cur ++ a) :: splitScan [c] b 0 [] := by
  induction a generalizing cur with
  | nil =>
    rw [List.nil_append, splitScan, HasPrefix_cons_singleton]
    simp
  | cons d a ih =>
    have hd : d ≠ c := fun e => h (by simp [e])
    have hs : c ∉ a := fun e => h (List.mem_cons_of_mem _ e)
    rw [List.cons_append, splitScan, HasPrefix_cons_singleton]
    simp only [hd, decide_False, Bool.false_eq_true, if_false]
    rw [ih _ hs]
    simp

/-- Splitting on a character that does not occur gives the string itself. -/
theorem Split_not_mem (c : Char) (s : GoString) (h : c ∉ s) : Split s [c] = [s] := by
  simp [Split, splitScan_not_mem c s [] h]

/-- Splitting at the first occurrence of the separator character. -/
theorem Split_append_sep (c : Char) (a b : GoString) (h : c ∉ a) :
    Split (a ++ c :: b) [c] = a :: Split b [c] := by
  simp [Split, splitScan_append_sep c a b [] h]

theorem splitScan_eq_splitOnP_go (c : Char) (s cur : GoString) :
    splitScan [c] s 0 cur = List.splitOnP.go (fun d => d == c) s cur.reverse := by
  induction s generalizing cur with
  | nil => simp [splitScan, List.splitOnP.go]
  | cons d s ih =>
    rw [splitScan, HasPrefix_cons_singleton, List.splitOnP.go]
    by_cases h : d = c
    · simp [h, ih]
    · simp [h, ih]

/-- For a separator of one character, `Split` is the library function `List.splitOn`. -/
theorem Split_eq_splitOn (c : Char) (s : GoString) : Split s [c] = s.splitOn c := by
  simp [Split, splitScan_eq_splitOnP_go, List.splitOn, List.splitOnP]

/-! ## Lemmas on runs -/

theorem Run.bind_ret {α β : Type} (t : List Event) (a : α) (f : α → Run β) :
    (Run.mk t (.ret a) >>= f) = ⟨t ++ (f a).trace, (f a).outcome⟩ := rfl

theorem Run.bind_exit {α β : Type} (t : List Event) (c : Nat) (f : α → Run β) :
    (Run.mk t (.exit c) >>= f) = ⟨t, .exit c⟩ := rfl

theorem Run.bind_panic {α β : Type} (t : List Event) (f : α → Run β) :
    (Run.mk t .panic >>= f) = ⟨t, .panic⟩ := rfl

theorem Run.pure_eq {α : Type} (a : α) : (pure a : Run α) = ⟨[], .ret a⟩ := rfl

/-- The loop of `logBaseImage` writes nothing when no line starts with the key. -/
theorem logBaseImageLoop_no_key (ls : List GoString)
    (h : ∀ l ∈ ls, HasPrefix l "PRETTY_NAME=".toList = false) :
    logBaseImageLoop ls = ⟨[], .ret none⟩ := by
  induction ls with
  | nil => rfl
  | cons l ls ih =>
    rw [logBaseImageLoop, h l (List.mem_cons_self _ _)]
    simp only [Bool.false_eq_true, if_false]
    exact ih fun x hx => h x (List.mem_cons_of_mem _ hx)

theorem prettyNameLine_eq (X : GoString) :
    prettyNameLine X = "PRETTY_NAME=".toList ++ dquote :: (X ++ dquote :: []) := by
  simp [prettyNameLine, dquote]

theorem dquote_toList : "\"".toList = [dquote] := by decide

/-- The loop of `logBaseImage` stops at the first line that starts with the key
and contains a double quote. -/
theorem logBaseImageLoop_first (before after : List GoString) (X : GoString)
    (hbefore : ∀ l ∈ before, ¬ ("PRETTY_NAME=".toList <+: l ∧ dquote ∈ l))
    (hX : dquote ∉ X) :
    logBaseImageLoop (before ++ prettyNameLine X :: after)
      = ⟨[.log ("Base image detected: ".toList ++ X)], .ret none⟩ := by
  induction before with
  | nil =>
    have hp : HasPrefix (prettyNameLine X) "PRETTY_NAME=".toList = true := by
      rw [HasPrefix_iff, prettyNameLine_eq]
      exact List.prefix_append _ _
    have hk : dquote ∉ "PRETTY_NAME=".toList := by decide
    have hs : Split (prettyNameLine X) "\"".toList = ["PRETTY_NAME=".toList, X, []] := by
      rw [dquote_toList, prettyNameLine_eq, Split_append_sep _ _ _ hk,
        Split_append_sep _ _ _ hX]
      rfl
    rw [List.nil_append, logBaseImageLoop, hp, hs]
    rfl
  | cons l ls ih =>
    have ih2 := ih fun x hx => hbefore x (List.mem_cons_of_mem _ hx)
    have hl := hbefore l (List.mem_cons_self _ _)
    rw [List.cons_append, logBaseImageLoop]
    by_cases hp : HasPrefix l "PRETTY_NAME=".toList = true
    · have hq : dquote ∉ l := fun hq => hl ⟨(HasPrefix_iff _ _).1 hp, hq⟩
      rw [if_pos hp, dquote_toList, Split_not_mem _ _ hq, if_neg (by simp)]
      exact ih2
    · rw [if_neg hp]
      exact ih2

/-! ## The base image report -/

/-- C1, as the code has it: when `/etc/os-release` is read successfully, the
line `PRETTY_NAME="X"` is the first of its lines (split on the newline) that
starts with `PRETTY_NAME=` and contains a double quote, and `X` itself contains
no double quote, `logBaseImage` writes exactly one log message,
`Base image detected: X`, and returns nil. -/
theorem logBaseImage_first_pretty_name (w : World) (buf X : GoString)
    (before after : List GoString)
    (hread : w.ReadFile "/etc/os-release".toList = .ok buf)
    (hlines : Split buf "\n".toList = before ++ prettyNameLine X :: after)
    (hbefore : ∀ l ∈ before, ¬ ("PRETTY_NAME=".toList <+: l ∧ dquote ∈ l))
    (hX : dquote ∉ X) :
    logBaseImage w = ⟨[.readFile "/etc/os-release".toList,
      .log ("Base image detected: ".toList ++ X)], .ret none⟩ := by
  have h := logBaseImageLoop_first before after X hbefore hX
  simp only [logBaseImage, ioutilReadFile, hread, Run.bind_ret, hlines, h]
  rfl

/-- Witness of C1: an os-release file whose second line is the first one with the key. -/
theorem logBaseImage_first_pretty_name_witness :
    logBaseImage (linuxWorld [("/etc/os-release".toList,
        "NAME=\"Ubuntu\"\nPRETTY_NAME=\"Ubuntu 16.04.3 LTS\"\nID=ubuntu\n".toList)] (.ok 0xef53))
      = ⟨[.readFile "/etc/os-release".toList,
          .log "Base image detected: Ubuntu 16.04.3 LTS".toList], .ret none⟩ :=
  logBaseImage_first_pretty_name _
    "NAME=\"Ubuntu\"\nPRETTY_NAME=\"Ubuntu 16.04.3 LTS\"\nID=ubuntu\n".toList
    "Ubuntu 16.04.3 LTS".toList ["NAME=\"Ubuntu\"".toList] ["ID=ubuntu".toList, []]
    rfl (by decide) (by decide) (by decide)

/-- C1 fails as stated, on two inputs.  With two `PRETTY_NAME` lines the file has
the line `PRETTY_NAME="B"`, and the message names `A`, the value of the first
one.  With the line `PRETTY_NAME="Foo \"bar\""` the value `X` is `Foo \"bar\"`,
and the message names `Foo \`, the text up to the second double quote. -/
theorem logBaseImage_pretty_name_counterexample :
    (prettyNameLine "B".toList ∈ Split "PRETTY_NAME=\"A\"\nPRETTY_NAME=\"B\"".toList "\n".toList
      ∧ logLines (logBaseImage (linuxWorld [("/etc/os-release".toList,
          "PRETTY_NAME=\"A\"\nPRETTY_NAME=\"B\"".toList)] (.ok 0xef53))).trace
        = ["Base image detected: A".toList]
      ∧ "Base image detected: A".toList ≠ "Base image detected: ".toList ++ "B".toList)
    ∧ (prettyNameLine "Foo \\\"bar\\\"".toList
          ∈ Split "PRETTY_NAME=\"Foo \\\"bar\\\"\"".toList "\n".toList
      ∧ logLines (logBaseImage (linuxWorld [("/etc/os-release".toList,
          "PRETTY_NAME=\"Foo \\\"bar\\\"\"".toList)] (.ok 0xef53))).trace
        = ["Base image detected: Foo \\".toList]
      ∧ "Base image detected: Foo \\".toList
          ≠ "Base image detected: ".toList ++ "Foo \\\"bar\\\"".toList) := by
  decide

/-- C2, as the code has it: when reading `/etc/os-release` fails with the error
`err`, `logBaseImage` writes no log message and returns `err` to its caller. -/
theorem logBaseImage_read_error (w : World) (err : GoError)
    (hread : w.ReadFile "/etc/os-release".toList = .error err) :
    logBaseImage w = ⟨[.readFile "/etc/os-release".toList], .ret (some err)⟩ := by
  simp only [logBaseImage, ioutilReadFile, hread, Run.bind_ret]
  rfl

/-- Witness of C2: an environment without the file. -/
theorem logBaseImage_read_error_witness :
    logBaseImage (linuxWorld [] (.ok 0xef53))
      = ⟨[.readFile "/etc/os-release".toList],
          .ret (some "open /etc/os-release: no such file or directory".toList)⟩ :=
  logBaseImage_read_error (linuxWorld [] (.ok 0xef53))
    "open /etc/os-release: no such file or directory".toList rfl

/-- C2 fails as stated: without the file, `logBaseImage` does not return nil but
the error of the read. -/
theorem logBaseImage_read_error_counterexample :
    (linuxWorld [] (.ok 0xef53)).ReadFile "/etc/os-release".toList
        = .error "open /etc/os-release: no such file or directory".toList
      ∧ (logBaseImage (linuxWorld [] (.ok 0xef53))).outcome
        = .ret (some "open /etc/os-release: no such file or directory".toList)
      ∧ (logBaseImage (linuxWorld [] (.ok 0xef53))).outcome ≠ .ret none :=
  ⟨rfl, by decide, by decide⟩

/-- C3: when `/etc/os-release` is read successfully and none of its lines starts
with `PRETTY_NAME=`, `logBaseImage` only reads the file: it writes no log
message and returns nil. -/
theorem logBaseImage_key_absent (w : World) (buf : GoString)
    (hread : w.ReadFile "/etc/os-release".toList = .ok buf)
    (hkey : ∀ l ∈ Split buf "\n".toList, ¬ "PRETTY_NAME=".toList <+: l) :
    logBaseImage w = ⟨[.readFile "/etc/os-release".toList], .ret none⟩ := by
  have h := logBaseImageLoop_no_key (Split buf "\n".toList) fun l hl => by
    cases hp : HasPrefix l "PRETTY_NAME=".toList
    · rfl
    · exact absurd ((HasPrefix_iff _ _).1 hp) (hkey l hl)
  simp only [logBaseImage, ioutilReadFile, hread, Run.bind_ret, h]
  rfl

/-- Witness of C3: an os-release file without the key. -/
theorem logBaseImage_key_absent_witness :
    logBaseImage (linuxWorld [("/etc/os-release".toList, "NAME=\"Ubuntu\"\nID=ubuntu\n".toList)]
        (.ok 0xef53))
      = ⟨[.readFile "/etc/os-release".toList], .ret none⟩ :=
  logBaseImage_key_absent _ "NAME=\"Ubuntu\"\nID=ubuntu\n".toList rfl (by decide)

/-! ## The filesystem check -/

theorem fsTypesAt_absent (code : Int) (h : ∀ name, (code, name) ∉ fsTypes) :
    fsTypesAt code = [] := by
  have hnone : List.lookup code fsTypes = none := by
    rw [List.lookup_eq_none_iff]
    intro p hp
    rw [bne_iff_ne]
    intro hk
    have hpair : (code, p.2) = p := by rw [hk]
    exact h p.2 (hpair ▸ hp)
  simp [fsTypesAt, hnone]

theorem fsTypesAt_cases (code : Int) :
    (code = 0x61756673 ∨ code = 0x794c7630 ∨ code = 0x01021994) ∨
    (fsTypesAt code ≠ "aufs".toList ∧ fsTypesAt code ≠ "overlayfs".toList ∧
      fsTypesAt code ≠ "tmpfs".toList) := by
  by_cases h1 : code = 0x61756673
  · exact Or.inl (Or.inl h1)
  by_cases h2 : code = 0x794c7630
  · exact Or.inl (Or.inr (Or.inl h2))
  by_cases h3 : code = 0x01021994
  · exact Or.inl (Or.inr (Or.inr h3))
  refine Or.inr ?_
  by_cases h4 : code = 0xef53
  · subst h4; decide
  by_cases h5 : code = 0x6969
  · subst h5; decide
  by_cases h6 : code = 0x65735546
  · subst h6; decide
  by_cases h7 : code = 0x9123683e
  · subst h7; decide
  have : fsTypesAt code = [] := by
    apply fsTypesAt_absent
    intro name
    simp [fsTypes, h1, h2, h3, h4, h5, h6, h7]
  rw [this]
  decide

/-- C5: when `statfs` on the path succeeds with a type code that is none of the
codes of aufs, overlayfs and tmpfs, `checkFS` writes the one message
`Detected <path> has filesystem type '<name>'`, where `<name>` is the name
`fsTypes` has for the code, and returns; for a code that `fsTypes` does not
have, the name is the empty string. -/
theorem checkFS_other_type (w : World) (path : GoString) (code : Int)
    (hstat : w.Statfs path = .ok code)
    (hcode : code ≠ 0x61756673 ∧ code ≠ 0x794c7630 ∧ code ≠ 0x01021994) :
    checkFS w path = ⟨[.statfs path, .log ("Detected ".toList ++ path ++
        " has filesystem type \x27".toList ++ fsTypesAt code ++ "\x27".toList)], .ret ()⟩
      ∧ ((∀ name, (code, name) ∉ fsTypes) → fsTypesAt code = []) := by
  refine ⟨?_, fsTypesAt_absent code⟩
  have hname := (fsTypesAt_cases code).resolve_left (by
    rintro (h | h | h)
    · exact hcode.1 h
    · exact hcode.2.1 h
    · exact hcode.2.2 h)
  simp only [checkFS, unixStatfs, hstat, Run.bind_ret]
  rw [if_neg (by
    rintro (h | h | h)
    · exact hname.1 h
    · exact hname.2.1 h
    · exact hname.2.2 h)]
  rfl

/-- Witness of C5: the code of ext, and a code `fsTypes` does not have. -/
theorem checkFS_other_type_witness :
    (checkFS (linuxWorld [] (.ok 0xef53)) "/mnt/mqm".toList
        = ⟨[.statfs "/mnt/mqm".toList,
            .log "Detected /mnt/mqm has filesystem type \x27ext\x27".toList], .ret ()⟩
      ∧ ((∀ name, ((0xef53 : Int), name) ∉ fsTypes) → fsTypesAt 0xef53 = []))
    ∧ (checkFS (linuxWorld [] (.ok 0x58465342)) "/mnt/mqm".toList
        = ⟨[.statfs "/mnt/mqm".toList,
            .log "Detected /mnt/mqm has filesystem type \x27\x27".toList], .ret ()⟩
      ∧ ((∀ name, ((0x58465342 : Int), name) ∉ fsTypes) → fsTypesAt 0x58465342 = [])) :=
  ⟨checkFS_other_type (linuxWorld [] (.ok 0xef53)) "/mnt/mqm".toList 0xef53 rfl (by decide),
   checkFS_other_type (linuxWorld [] (.ok 0x58465342)) "/mnt/mqm".toList 0x58465342 rfl
    (by decide)⟩

/-- The function `checkFS` ends the process when the code is one of aufs, overlayfs and tmpfs. -/
theorem checkFS_unsupported (w : World) (path : GoString) (code : Int)
    (hstat : w.Statfs path = .ok code)
    (hcode : code = 0x61756673 ∨ code = 0x794c7630 ∨ code = 0x01021994) :
    checkFS w path = ⟨[.statfs path, .log ("Error: ".toList ++ path ++
        " uses unsupported filesystem type ".toList ++ fsTypesAt code)], .exit 1⟩ := by
  simp only [checkFS, unixStatfs, hstat, Run.bind_ret]
  rw [if_pos (by
    rcases hcode with h | h | h
    · subst h; exact Or.inl (by decide)
    · subst h; exact Or.inr (Or.inl (by decide))
    · subst h; exact Or.inr (Or.inr (by decide)))]
  rfl

/-- The function `checkFS` calls `statfs` once, on its path. -/
theorem statfsCalls_checkFS (w : World) (path : GoString) :
    statfsCalls (checkFS w path).trace = [path] := by
  unfold checkFS unixStatfs
  rw [Run.bind_ret]
  cases w.Statfs path with
  | error e => rfl
  | ok code =>
    dsimp only
    split <;> rfl

/-! ## The mount table -/

theorem readProc_ok (w : World) (filename buf : GoString)
    (h : w.ReadFile filename = .ok buf) :
    readProc w filename = ⟨[.readFile filename], .ret (.ok (TrimSpace buf))⟩ := by
  simp only [readProc, ioutilReadFile, h, Run.bind_ret]
  rfl

theorem readProc_error (w : World) (filename : GoString) (err : GoError)
    (h : w.ReadFile filename = .error err) :
    readProc w filename = ⟨[.readFile filename], .ret (.error err)⟩ := by
  simp only [readProc, ioutilReadFile, h, Run.bind_ret]
  rfl

theorem fields_get (l : GoString) (h : 3 ≤ (Split l " ".toList).length) :
    (Split l " ".toList).get? 1 = some (mountPoint l) ∧
    (Split l " ".toList).get? 2 = some (fsTypeField l) := by
  unfold mountPoint fsTypeField
  generalize Split l " ".toList = parts at h
  match parts, h with
  | _ :: _ :: _ :: _, _ => exact ⟨rfl, rfl⟩

/-- The loop of `readMounts` on lines that all have three fields: one message
for each line whose mount point contains `/mnt`, and `detected` is set when
there is such a line. -/
theorem readMountsLoop_fields (ls : List GoString) (d : Bool)
    (h : ∀ l ∈ ls, 3 ≤ (Split l " ".toList).length) :
    readMountsLoop ls d
      = ⟨(ls.filter isVolumeEntry).map detectedVolume,
         .ret (d || !(ls.filter isVolumeEntry).isEmpty)⟩ := by
  induction ls generalizing d with
  | nil => simp [readMountsLoop, Run.pure_eq]
  | cons l ls ih =>
    have hf := fields_get l (h l (List.mem_cons_self _ _))
    have ih2 := fun d => ih d fun x hx => h x (List.mem_cons_of_mem _ hx)
    rw [readMountsLoop]
    rw [hf.1, hf.2]
    dsimp only
    by_cases hc : Contains (mountPoint l) "/mnt".toList = true
    · have hi : isVolumeEntry l = true :=
        decide_eq_true ((Contains_iff _ _).1 hc)
      rw [if_pos hc, List.filter_cons_of_pos hi, ih2 true, logPrint, Run.bind_ret]
      simp [detectedVolume]
    · have hi : ¬ isVolumeEntry l = true := fun hd =>
        hc ((Contains_iff _ _).2 (of_decide_eq_true hd))
      rw [if_neg hc, List.filter_cons_of_neg hi, ih2 d]

/-- The loop of `readMounts` panics at the first line with fewer than three fields. -/
theorem readMountsLoop_panic (before after : List GoString) (l : GoString) (d : Bool)
    (hbefore : ∀ x ∈ before, 3 ≤ (Split x " ".toList).length)
    (hl : (Split l " ".toList).length < 3) :
    readMountsLoop (before ++ l :: after) d
      = ⟨(before.filter isVolumeEntry).map detectedVolume,
         .panic⟩ := by
  induction before generalizing d with
  | nil =>
    rw [List.nil_append, readMountsLoop]
    generalize Split l " ".toList = parts at hl
    match parts, hl with
    | [], _ => rfl
    | [_], _ => rfl
    | [_, _], _ => rfl
    | _ :: _ :: _ :: _, hl => exact absurd hl (by simp)
  | cons x xs ih =>
    have hf := fields_get x (hbefore x (List.mem_cons_self _ _))
    have ih2 := fun d => ih d fun y hy => hbefore y (List.mem_cons_of_mem _ hy)
    rw [List.cons_append, readMountsLoop]
    rw [hf.1, hf.2]
    dsimp only
    by_cases hc : Contains (mountPoint x) "/mnt".toList = true
    · have hi : isVolumeEntry x = true :=
        decide_eq_true ((Contains_iff _ _).1 hc)
      rw [if_pos hc, List.filter_cons_of_pos hi, ih2 true, logPrint, Run.bind_ret]
      simp [detectedVolume]
    · have hi : ¬ isVolumeEntry x = true := fun hd =>
        hc ((Contains_iff _ _).2 (of_decide_eq_true hd))
      rw [if_neg hc, List.filter_cons_of_neg hi, ih2 d]

/-- What `readMounts` does on a mount table whose lines all have three fields. -/
theorem readMounts_fields (w : World) (buf : GoString)
    (hread : w.ReadFile "/proc/mounts".toList = .ok buf)
    (hfields : ∀ l ∈ Split (TrimSpace buf) "\n".toList, 3 ≤ (Split l " ".toList).length) :
    readMounts w
      = ⟨.readFile "/proc/mounts".toList :: ((volumeEntries (TrimSpace buf)).map detectedVolume ++
          if volumeEntries (TrimSpace buf) = [] then
            [.log "No volume detected. Persistent messages may be lost".toList]
          else (checkFS w "/mnt/mqm".toList).trace),
         if volumeEntries (TrimSpace buf) = [] then .ret none
          else (checkFS w "/mnt/mqm".toList).outcome.replace none⟩ := by
  rw [readMounts, readProc_ok w _ _ hread, Run.bind_ret]
  dsimp only
  rw [readMountsLoop_fields _ _ hfields, Run.bind_ret]
  dsimp only
  by_cases he : volumeEntries (TrimSpace buf) = []
  · have he2 := he
    unfold volumeEntries at he2
    rw [if_pos he, if_pos he, he2, he]
    rfl
  · have he2 := he
    unfold volumeEntries at he2
    have hne : (List.filter isVolumeEntry
        (Split (TrimSpace buf) "\n".toList)).isEmpty = false := by
      cases hx : List.filter isVolumeEntry (Split (TrimSpace buf) "\n".toList) with
      | nil => exact absurd hx he2
      | cons _ _ => rfl
    rw [if_neg he, if_neg he, hne]
    unfold volumeEntries
    cases hcheck : checkFS w "/mnt/mqm".toList with
    | mk t o =>
      cases o <;> simp [Outcome.replace, Run.bind_ret, Run.bind_exit, Run.bind_panic, Run.pure_eq]

theorem statfsCalls_append (a b : List Event) :
    statfsCalls (a ++ b) = statfsCalls a ++ statfsCalls b := by
  induction a with
  | nil => rfl
  | cons e a ih => cases e <;> simp [statfsCalls, ih]

theorem statfsCalls_readFile (f : GoString) (es : List Event) :
    statfsCalls (.readFile f :: es) = statfsCalls es := rfl

theorem statfsCalls_detectedVolume (ls : List GoString) :
    statfsCalls (ls.map detectedVolume) = [] := by
  induction ls with
  | nil => rfl
  | cons l ls ih => simpa [detectedVolume, statfsCalls] using ih

/-- C10: when `/proc/mounts` is read successfully and every line of the table
(the text read, without its leading and trailing white space) has at least
three space-separated fields, `readMounts` writes, after the read and in table
order, exactly one message `Detected '<fsType>' volume mounted to <mountPoint>`
for each entry whose second field contains `/mnt`, naming the entry's third and
second field, and then either the message that no volume is detected, when
there is no such entry, or what `checkFS` does on `/mnt/mqm`; `statfs` is called
once, on `/mnt/mqm`, when there is such an entry, and not at all otherwise. -/
theorem readMounts_detected_volumes (w : World) (buf : GoString)
    (hread : w.ReadFile "/proc/mounts".toList = .ok buf)
    (hfields : ∀ l ∈ Split (TrimSpace buf) "\n".toList, 3 ≤ (Split l " ".toList).length) :
    (readMounts w).trace
        = .readFile "/proc/mounts".toList :: ((volumeEntries (TrimSpace buf)).map detectedVolume ++
            if volumeEntries (TrimSpace buf) = [] then
              [.log "No volume detected. Persistent messages may be lost".toList]
            else (checkFS w "/mnt/mqm".toList).trace)
      ∧ statfsCalls (readMounts w).trace
        = (if volumeEntries (TrimSpace buf) = [] then [] else ["/mnt/mqm".toList])
      ∧ (∀ l, l ∈ volumeEntries (TrimSpace buf) ↔
          l ∈ Split (TrimSpace buf) "\n".toList ∧ "/mnt".toList <:+: (Split l " ".toList).getD 1 [])
      ∧ (∀ l, detectedVolume l = .log ("Detected \x27".toList ++ (Split l " ".toList).getD 2 [] ++
          "\x27 volume mounted to ".toList ++ (Split l " ".toList).getD 1 [])) := by
  rw [readMounts_fields w buf hread hfields]
  refine ⟨rfl, ?_, ?_, fun _ => rfl⟩
  · dsimp only
    rw [statfsCalls_readFile, statfsCalls_append, statfsCalls_detectedVolume, List.nil_append]
    by_cases he : volumeEntries (TrimSpace buf) = []
    · rw [if_pos he, if_pos he]
      rfl
    · rw [if_neg he, if_neg he, statfsCalls_checkFS]
  · intro l
    simp [volumeEntries, isVolumeEntry, mountPoint]

/-- Witness of C10: a table with two volumes under `/mnt` on an ext filesystem. -/
theorem readMounts_detected_volumes_witness :
    (readMounts (linuxWorld [("/proc/mounts".toList,
        "overlay / overlay rw 0 0\n/dev/sdb1 /mnt/mqm ext4 rw,relatime 0 0\nproc /proc proc rw 0 0\n/dev/sdc1 /mnt/mqm/data xfs rw 0 0\n".toList)]
        (.ok 0xef53))).trace
      = [.readFile "/proc/mounts".toList,
         .log "Detected \x27ext4\x27 volume mounted to /mnt/mqm".toList,
         .log "Detected \x27xfs\x27 volume mounted to /mnt/mqm/data".toList,
         .statfs "/mnt/mqm".toList,
         .log "Detected /mnt/mqm has filesystem type \x27ext\x27".toList]
    ∧ statfsCalls (readMounts (linuxWorld [("/proc/mounts".toList,
        "overlay / overlay rw 0 0\n/dev/sdb1 /mnt/mqm ext4 rw,relatime 0 0\nproc /proc proc rw 0 0\n/dev/sdc1 /mnt/mqm/data xfs rw 0 0\n".toList)]
        (.ok 0xef53))).trace = ["/mnt/mqm".toList] :=
  have h := readMounts_detected_volumes (linuxWorld [("/proc/mounts".toList,
        "overlay / overlay rw 0 0\n/dev/sdb1 /mnt/mqm ext4 rw,relatime 0 0\nproc /proc proc rw 0 0\n/dev/sdc1 /mnt/mqm/data xfs rw 0 0\n".toList)]
        (.ok 0xef53))
      "overlay / overlay rw 0 0\n/dev/sdb1 /mnt/mqm ext4 rw,relatime 0 0\nproc /proc proc rw 0 0\n/dev/sdc1 /mnt/mqm/data xfs rw 0 0\n".toList
      rfl (by decide)
  ⟨h.1.trans (by decide), h.2.1.trans (by decide)⟩

/-- On a table whose lines all have three fields and none of whose mount points
contains `/mnt`, `readMounts` writes the warning, does not call `statfs` and
returns nil. -/
theorem readMounts_no_volume (w : World) (buf : GoString)
    (hread : w.ReadFile "/proc/mounts".toList = .ok buf)
    (hfields : ∀ l ∈ Split (TrimSpace buf) "\n".toList, 3 ≤ (Split l " ".toList).length)
    (hnone : volumeEntries (TrimSpace buf) = []) :
    readMounts w = ⟨[.readFile "/proc/mounts".toList,
      .log "No volume detected. Persistent messages may be lost".toList], .ret none⟩ := by
  rw [readMounts_fields w buf hread hfields, if_pos hnone, if_pos hnone, hnone]
  rfl

/-- On a table whose lines all have three fields, one of them with a mount point
containing `/mnt`, and a `statfs` code of aufs, overlayfs or tmpfs,
`readMounts` ends the process with the message naming `/mnt/mqm` and the
filesystem. -/
theorem readMounts_unsupported (w : World) (buf : GoString) (code : Int)
    (hread : w.ReadFile "/proc/mounts".toList = .ok buf)
    (hfields : ∀ l ∈ Split (TrimSpace buf) "\n".toList, 3 ≤ (Split l " ".toList).length)
    (hsome : volumeEntries (TrimSpace buf) ≠ [])
    (hstat : w.Statfs "/mnt/mqm".toList = .ok code)
    (hcode : code = 0x61756673 ∨ code = 0x794c7630 ∨ code = 0x01021994) :
    readMounts w = ⟨.readFile "/proc/mounts".toList ::
        ((volumeEntries (TrimSpace buf)).map detectedVolume ++ [.statfs "/mnt/mqm".toList,
          .log ("Error: /mnt/mqm uses unsupported filesystem type ".toList ++ fsTypesAt code)]),
      .exit 1⟩ := by
  rw [readMounts_fields w buf hread hfields, if_neg hsome, if_neg hsome,
    checkFS_unsupported w _ code hstat hcode]
  rfl

/-- On a table with a line of fewer than three fields, `readMounts` panics at
the first such line, after the messages of the lines before it. -/
theorem readMounts_panic (w : World) (buf l : GoString) (before after : List GoString)
    (hread : w.ReadFile "/proc/mounts".toList = .ok buf)
    (hlines : Split (TrimSpace buf) "\n".toList = before ++ l :: after)
    (hbefore : ∀ x ∈ before, 3 ≤ (Split x " ".toList).length)
    (hl : (Split l " ".toList).length < 3) :
    readMounts w = ⟨.readFile "/proc/mounts".toList ::
      (before.filter isVolumeEntry).map detectedVolume, .panic⟩ := by
  rw [readMounts, readProc_ok w _ _ hread, Run.bind_ret]
  dsimp only
  rw [hlines, readMountsLoop_panic before after l false hbefore hl, Run.bind_panic]
  rfl

/-- C7 fails on the code: on an empty mount table, and on a table with a line of
two fields, `readMounts` reads the file and then panics on `parts[1]` or
`parts[2]`, an index past the end of the field list. -/
theorem readMounts_malformed_panics :
    readMounts (linuxWorld [("/proc/mounts".toList, [])] (.ok 0xef53))
        = ⟨[.readFile "/proc/mounts".toList], .panic⟩
      ∧ Split [] " ".toList = [[]]
      ∧ readMounts (linuxWorld [("/proc/mounts".toList,
          "rootfs / rootfs rw 0 0\nnone /dev\n".toList)] (.ok 0xef53))
        = ⟨[.readFile "/proc/mounts".toList], .panic⟩ := by
  decide

/-- C6 fails on the code: on a table with an empty line and no mount point
containing `/mnt`, `readMounts` panics and the warning is not written. -/
theorem readMounts_no_volume_blank_line_panics :
    volumeEntries (TrimSpace "proc /proc proc rw 0 0\n\ntmpfs /dev tmpfs rw 0 0\n".toList) = []
      ∧ readMounts (linuxWorld [("/proc/mounts".toList,
          "proc /proc proc rw 0 0\n\ntmpfs /dev tmpfs rw 0 0\n".toList)] (.ok 0xef53))
        = ⟨[.readFile "/proc/mounts".toList], .panic⟩ := by
  decide

/-- C4 fails on the code: on a table with a volume under `/mnt`, followed by an
empty line, and the `statfs` code of tmpfs, `readMounts` panics after the
message of the volume; `statfs` is not called and no fatal message is written. -/
theorem readMounts_unsupported_blank_line_panics :
    volumeEntries (TrimSpace "/dev/sdb1 /mnt/mqm ext4 rw 0 0\n\nproc /proc proc rw 0 0\n".toList)
        = ["/dev/sdb1 /mnt/mqm ext4 rw 0 0".toList]
      ∧ fsTypesAt 0x01021994 = "tmpfs".toList
      ∧ readMounts (linuxWorld [("/proc/mounts".toList,
          "/dev/sdb1 /mnt/mqm ext4 rw 0 0\n\nproc /proc proc rw 0 0\n".toList)] (.ok 0x01021994))
        = ⟨[.readFile "/proc/mounts".toList,
            .log "Detected \x27ext4\x27 volume mounted to /mnt/mqm".toList], .panic⟩ := by
  decide

/-! ## The whole report -/

/-- C8: when the operating system identifier is not `linux`, `logConfig` writes
the CPU architecture message and the message `Unsupported platform: <GOOS>`
and ends the process; it reads no file, looks up no user, decodes no
capabilities and does not call `statfs`. -/
theorem logConfig_unsupported_platform (w : World) (hos : w.GOOS ≠ "linux".toList) :
    logConfig w = ⟨[.log ("CPU architecture: ".toList ++ w.GOARCH),
      .log ("Unsupported platform: ".toList ++ w.GOOS)], .exit 1⟩ := by
  rw [logConfig, logPrint, Run.bind_ret, if_neg hos]
  rfl

/-- Witness of C8: the report on darwin. -/
theorem logConfig_unsupported_platform_witness :
    logConfig darwinWorld = ⟨[.log "CPU architecture: amd64".toList,
      .log "Unsupported platform: darwin".toList], .exit 1⟩ :=
  logConfig_unsupported_platform darwinWorld (by decide)

theorem Run.bind_of_ret {α β : Type} (r : Run α) (a : α) (f : α → Run β)
    (h : r.outcome = .ret a) :
    (r >>= f) = ⟨r.trace ++ (f a).trace, (f a).outcome⟩ := by
  cases r with
  | mk t o =>
    cases h
    rfl

theorem logBaseImageLoop_returns (ls : List GoString) :
    (logBaseImageLoop ls).outcome = .ret none := by
  induction ls with
  | nil => rfl
  | cons l ls ih =>
    rw [logBaseImageLoop]
    split
    · dsimp only
      split
      · rfl
      · exact ih
    · exact ih

/-- The function `logBaseImage` always returns. -/
theorem logBaseImage_returns (w : World) : ∃ r, (logBaseImage w).outcome = .ret r := by
  unfold logBaseImage ioutilReadFile
  rw [Run.bind_ret]
  cases w.ReadFile "/etc/os-release".toList with
  | error e => exact ⟨some e, rfl⟩
  | ok buf => exact ⟨none, logBaseImageLoop_returns _⟩

theorem Run.bind_discard {α β : Type} (r : Run α) (b : β) :
    (r >>= fun _ => (pure b : Run β)) = ⟨r.trace, r.outcome.replace b⟩ := by
  cases r with
  | mk t o =>
    cases o with
    | ret a => simp [Run.bind_ret, Run.pure_eq, Outcome.replace]
    | exit c => rfl
    | panic => rfl

theorem logUser_eq (w : World) : logUser w = ⟨userReport w, .ret ()⟩ := by
  unfold logUser userCurrent userReport
  rw [Run.bind_ret]
  cases w.Current <;> rfl

theorem logCapabilities_eq (w : World) :
    logCapabilities w = ⟨capabilitiesReport w, .ret ()⟩ := by
  unfold logCapabilities capabilitiesReport
  cases h : w.ReadFile "/proc/1/status".toList with
  | error e =>
    rw [readProc_error w _ _ h, Run.bind_ret]
    rfl
  | ok buf =>
    rw [readProc_ok w _ _ h, Run.bind_ret]
    dsimp only
    unfold detectCapabilities
    rw [Run.bind_ret]
    cases w.DetectCapabilities (TrimSpace buf) <;> rfl

theorem procReport_error (w : World) (filename label : GoString) (err : GoError)
    (h : w.ReadFile filename = .error err) :
    procReport w filename label = [.readFile filename, .log err] := by
  unfold procReport
  rw [h]

theorem procReport_ok (w : World) (filename label buf : GoString)
    (h : w.ReadFile filename = .ok buf) :
    procReport w filename label = [.readFile filename, .log (label ++ TrimSpace buf)] := by
  unfold procReport
  rw [h]

/-- The last three steps of `logConfig`. -/
theorem logConfig_tail (w : World) :
    (do
      logUser w
      logCapabilities w
      let _ ← readMounts w
      pure PUnit.unit : Run PUnit)
      = ⟨userReport w ++ (capabilitiesReport w ++ (readMounts w).trace),
         (readMounts w).outcome.replace ()⟩ := by
  rw [logUser_eq, Run.bind_ret, logCapabilities_eq, Run.bind_ret, Run.bind_discard]

/-- C9: on Linux, `logConfig` writes the CPU architecture message and then runs,
in this order and whatever the earlier steps met, the report of the kernel
version, `logBaseImage`, the report of the file handle limit, the identity
lookup, the capability report and `readMounts`; it ends as `readMounts` ends,
and none of the steps before `readMounts` ends the run or hands an error on.  A
failed read of the kernel version or of the file handle limit writes the error
as a message; a failed identity lookup, a failed read of the status of process
1 and a failed capability decoding write nothing. -/
theorem logConfig_linux_steps (w : World) (hos : w.GOOS = "linux".toList) :
    (logConfig w).trace
        = .log ("CPU architecture: ".toList ++ w.GOARCH) ::
          (procReport w "/proc/sys/kernel/osrelease".toList "Linux kernel version: ".toList ++
            ((logBaseImage w).trace ++
              (procReport w "/proc/sys/fs/file-max".toList "Maximum file handles: ".toList ++
                (userReport w ++ (capabilitiesReport w ++ (readMounts w).trace)))))
      ∧ (logConfig w).outcome = (readMounts w).outcome.replace ()
      ∧ (∃ r, (logBaseImage w).outcome = .ret r)
      ∧ (∀ err label, w.ReadFile "/proc/sys/kernel/osrelease".toList = .error err →
          procReport w "/proc/sys/kernel/osrelease".toList label
            = [.readFile "/proc/sys/kernel/osrelease".toList, .log err])
      ∧ (∀ err label, w.ReadFile "/proc/sys/fs/file-max".toList = .error err →
          procReport w "/proc/sys/fs/file-max".toList label
            = [.readFile "/proc/sys/fs/file-max".toList, .log err])
      ∧ (∀ err, w.Current = .error err → userReport w = [.userCurrent])
      ∧ (∀ err, w.ReadFile "/proc/1/status".toList = .error err →
          capabilitiesReport w = [.readFile "/proc/1/status".toList])
      ∧ (∀ buf err, w.ReadFile "/proc/1/status".toList = .ok buf →
          w.DetectCapabilities (TrimSpace buf) = .error err →
          capabilitiesReport w
            = [.readFile "/proc/1/status".toList, .detectCapabilities (TrimSpace buf)]) := by
  obtain ⟨img, himg⟩ := logBaseImage_returns w
  refine ⟨?_, ?_, ⟨img, himg⟩, ?_, ?_, ?_, ?_, ?_⟩
  · rw [logConfig, logPrint, Run.bind_ret, if_pos hos]
    cases h1 : w.ReadFile "/proc/sys/kernel/osrelease".toList with
    | error e1 =>
      rw [readProc_error w _ _ h1, Run.bind_ret]
      dsimp only
      rw [logPrint, Run.bind_ret, Run.bind_of_ret _ img _ himg]
      cases h2 : w.ReadFile "/proc/sys/fs/file-max".toList with
      | error e2 =>
        rw [readProc_error w _ _ h2, Run.bind_ret]
        dsimp only
        rw [logPrint, Run.bind_ret, logConfig_tail]
        rw [procReport_error w _ _ _ h1, procReport_error w _ _ _ h2]
        rfl
      | ok v2 =>
        rw [readProc_ok w _ _ h2, Run.bind_ret]
        dsimp only
        rw [logPrint, Run.bind_ret, logConfig_tail]
        rw [procReport_error w _ _ _ h1, procReport_ok w _ _ _ h2]
        rfl
    | ok v1 =>
      rw [readProc_ok w _ _ h1, Run.bind_ret]
      dsimp only
      rw [logPrint, Run.bind_ret, Run.bind_of_ret _ img _ himg]
      cases h2 : w.ReadFile "/proc/sys/fs/file-max".toList with
      | error e2 =>
        rw [readProc_error w _ _ h2, Run.bind_ret]
        dsimp only
        rw [logPrint, Run.bind_ret, logConfig_tail]
        rw [procReport_ok w _ _ _ h1, procReport_error w _ _ _ h2]
        rfl
      | ok v2 =>
        rw [readProc_ok w _ _ h2, Run.bind_ret]
        dsimp only
        rw [logPrint, Run.bind_ret, logConfig_tail]
        rw [procReport_ok w _ _ _ h1, procReport_ok w _ _ _ h2]
        rfl
  · rw [logConfig, logPrint, Run.bind_ret, if_pos hos]
    cases h1 : w.ReadFile "/proc/sys/kernel/osrelease".toList with
    | error e1 =>
      rw [readProc_error w _ _ h1, Run.bind_ret]
      dsimp only
      rw [logPrint, Run.bind_ret, Run.bind_of_ret _ img _ himg]
      cases h2 : w.ReadFile "/proc/sys/fs/file-max".toList with
      | error e2 =>
        rw [readProc_error w _ _ h2, Run.bind_ret]
        dsimp only
        rw [logPrint, Run.bind_ret, logConfig_tail]
      | ok v2 =>
        rw [readProc_ok w _ _ h2, Run.bind_ret]
        dsimp only
        rw [logPrint, Run.bind_ret, logConfig_tail]
    | ok v1 =>
      rw [readProc_ok w _ _ h1, Run.bind_ret]
      dsimp only
      rw [logPrint, Run.bind_ret, Run.bind_of_ret _ img _ himg]
      cases h2 : w.ReadFile "/proc/sys/fs/file-max".toList with
      | error e2 =>
        rw [readProc_error w _ _ h2, Run.bind_ret]
        dsimp only
        rw [logPrint, Run.bind_ret, logConfig_tail]
      | ok v2 =>
        rw [readProc_ok w _ _ h2, Run.bind_ret]
        dsimp only
        rw [logPrint, Run.bind_ret, logConfig_tail]
  · intro err label h
    exact procReport_error w _ label err h
  · intro err label h
    exact procReport_error w _ label err h
  · intro err h
    unfold userReport
    rw [h]
  · intro err h
    unfold capabilitiesReport
    rw [h]
  · intro buf err h h2
    unfold capabilitiesReport
    rw [h]
    dsimp only
    rw [h2]

/-- Witness of C9: every step before `readMounts` fails, and `readMounts` is reached. -/
theorem logConfig_linux_steps_witness :
    (logConfig bareLinuxWorld).trace
        = [.log "CPU architecture: s390x".toList,
           .readFile "/proc/sys/kernel/osrelease".toList, .log "permission denied".toList,
           .readFile "/etc/os-release".toList,
           .readFile "/proc/sys/fs/file-max".toList, .log "permission denied".toList,
           .userCurrent,
           .readFile "/proc/1/status".toList,
           .readFile "/proc/mounts".toList,
           .log "No volume detected. Persistent messages may be lost".toList]
      ∧ (logConfig bareLinuxWorld).outcome = .ret () :=
  have h := logConfig_linux_steps bareLinuxWorld rfl
  ⟨h.1.trans (by decide), h.2.1.trans (by decide)⟩

/-! ## The string functions on examples -/

theorem Split_examples :
    Split "a b  c".toList " ".toList = ["a".toList, "b".toList, [], "c".toList]
      ∧ Split [] " ".toList = [[]]
      ∧ Split "aaa".toList "aa".toList = [[], "a".toList]
      ∧ Split "ab".toList [] = ["a".toList, "b".toList]
      ∧ Split "x\ny\n".toList "\n".toList = ["x".toList, "y".toList, []] := by
  decide

theorem TrimSpace_examples :
    TrimSpace " a b \n".toList = "a b".toList ∧ TrimSpace "\n\t ".toList = [] := by
  decide

theorem Contains_examples :
    Contains "/var/mnt/x".toList "/mnt".toList = true
      ∧ Contains "/var/mn".toList "/mnt".toList = false
      ∧ Contains [] [] = true := by
  decide

end MQConfig
